import Mathlib

/-!
Shallow embedding of the whatsapp-msg-sender delivery core
(src/routes/webhook.js, src/utils/imageUtils.js and the whatsappclient
module) together with theorems settling the frozen claims about it.

Conventions of the embedding:
* JavaScript strings are Lean `String`s; `String.prototype.includes` is
  `containsStr`, `startsWith` is modelled through `dropPrefixL`.
* JavaScript truthiness on optional strings (`if (!groupId)`) is
  `truthyS`: `undefined`/missing is `none`, and the empty string is falsy.
* Asynchronous sleeps and external side effects are recorded as events in
  a trace (`RetryEvent`, `BatchEvent`); the external world (whether the
  client is initialized, what `client.sendMessage` does on each attempt,
  whether html rendering or a url fetch succeeds) is an oracle supplied as
  a parameter.
* A thrown JavaScript error carrying message `m` is `Except.error m`.
-/

/-- `startsWithL pat s` is true when the character list `pat` is an initial
segment of `s` (JavaScript `s.startsWith(pat)` on the underlying chars). -/
def startsWithL : List Char → List Char → Bool
  | [], _ => true
  | _ :: _, [] => false
  | p :: ps, c :: cs => p = c && startsWithL ps cs

/-- `containsSeq pat s` is true when `pat` occurs contiguously inside `s`
(JavaScript `s.includes(pat)` on the underlying chars). -/
def containsSeq (pat : List Char) : List Char → Bool
  | [] => startsWithL pat []
  | c :: cs => startsWithL pat (c :: cs) || containsSeq pat cs

/-- JavaScript `s.includes(pat)` on Lean strings. -/
def containsStr (pat s : String) : Bool := containsSeq pat.data s.data

/-- The error message thrown by `sendMessageWithRetry`'s readiness
precheck: `throw new Error('WhatsApp client not fully initialized')`. -/
def notInitMsg : String := "WhatsApp client not fully initialized"

/-- The transient-error classification of webhook.js lines 45-47:
`error.message.includes('WidFactory') || error.message.includes('undefined')
|| error.message.includes('not fully initialized')`. -/
def isTransient (msg : String) : Bool :=
  containsStr "WidFactory" msg || containsStr "undefined" msg ||
    containsStr "not fully initialized" msg

/-- What the external world does when `sendMessageWithRetry` makes one
attempt: the precheck `!client.pupPage || !client.pupBrowser` fails, or
`client.sendMessage` resolves, or it rejects with an error message. -/
inductive AttemptOutcome where
  | notInitialized
  | sendOk
  | sendErr (msg : String)
  deriving DecidableEq, Repr

/-- Observable steps of one `sendMessageWithRetry` run: the fixed 2000 ms
settle sleep before a send, the send attempt itself (numbered), the
exponential-backoff sleep (with its duration in ms), and a call to the
optional `client.refreshState` hook. -/
inductive RetryEvent where
  | settle
  | sendAttempt (n : Nat)
  | backoff (ms : Nat)
  | refreshCall
  deriving DecidableEq, Repr

/-- Events produced by the best-effort `client.refreshState` call: the call
happens exactly when the client exposes the hook.  Whether the hook itself
fails is irrelevant to the trace and to the result, because the code
catches and only logs `refreshError` (webhook.js lines 55-62). -/
def refreshEvents (hasRefresh : Bool) : List RetryEvent :=
  if hasRefresh then [RetryEvent.refreshCall] else []

/-- One loop iteration's work before the catch block: the precheck throws
`notInitMsg` before the settle sleep; otherwise the code sleeps 2000 ms and
attempts the send.  Returns the events and the caught error, if any. -/
def attemptOnce (o : Nat → AttemptOutcome) (attempt : Nat) :
    List RetryEvent × Option String :=
  match o attempt with
  | AttemptOutcome.notInitialized => ([], some notInitMsg)
  | AttemptOutcome.sendOk =>
      ([RetryEvent.settle, RetryEvent.sendAttempt attempt], none)
  | AttemptOutcome.sendErr m =>
      ([RetryEvent.settle, RetryEvent.sendAttempt attempt], some m)

/-- The retry loop of webhook.js lines 27-68.  `attempt` is the 1-based
loop counter, `remaining` the number of iterations left (structurally
decreasing), `lastError` the `lastError` variable.  `rf` tells whether the
`refreshState` hook fails on a given attempt; the code swallows that
failure, so `rf` influences nothing — it is kept as a parameter precisely
so that this independence is a stated fact rather than an omission.
When the loop exhausts with `lastError = none` the code would `throw null`;
that branch is unreachable from `sendMessageWithRetry` (every iteration
that does not return sets `lastError`), and the model throws `""` there. -/
def retryGo (o : Nat → AttemptOutcome) (hasRefresh : Bool) (rf : Nat → Bool) :
    Nat → Nat → Option String → List RetryEvent × Except String Unit
  | _, 0, lastError => ([], Except.error (lastError.getD ""))
  | attempt, r + 1, _ =>
      match attemptOnce o attempt with
      | (evs, none) => (evs, Except.ok ())
      | (evs, some m) =>
          if isTransient m then
            let rest := retryGo o hasRefresh rf (attempt + 1) r (some m)
            (evs ++ [RetryEvent.backoff (2 ^ attempt * 3000)] ++
               refreshEvents hasRefresh ++ rest.1, rest.2)
          else
            (evs, Except.error m)

/-- `sendMessageWithRetry` (webhook.js lines 23-72): `MAX_RETRIES = 3`,
starting at attempt 1 with no recorded error. -/
def sendMessageWithRetry (o : Nat → AttemptOutcome) (hasRefresh : Bool)
    (rf : Nat → Bool) : List RetryEvent × Except String Unit :=
  retryGo o hasRefresh rf 1 3 none

/-- C1: three transient failures produce attempts 1,2,3 with backoffs
6000, 12000, 24000 ms, a refresh call after each failure when the hook
exists, and the last error propagated. -/
theorem retry_transient_three_failures (m1 m2 m3 : String)
    (o : Nat → AttemptOutcome) (hasRefresh : Bool) (rf : Nat → Bool)
    (h1 : o 1 = AttemptOutcome.sendErr m1)
    (h2 : o 2 = AttemptOutcome.sendErr m2)
    (h3 : o 3 = AttemptOutcome.sendErr m3)
    (t1 : isTransient m1 = true) (t2 : isTransient m2 = true)
    (t3 : isTransient m3 = true) :
    sendMessageWithRetry o hasRefresh rf =
      ([RetryEvent.settle, RetryEvent.sendAttempt 1, RetryEvent.backoff 6000] ++
         refreshEvents hasRefresh ++
       [RetryEvent.settle, RetryEvent.sendAttempt 2, RetryEvent.backoff 12000] ++
         refreshEvents hasRefresh ++
       [RetryEvent.settle, RetryEvent.sendAttempt 3, RetryEvent.backoff 24000] ++
         refreshEvents hasRefresh,
       Except.error m3) := by
  simp [sendMessageWithRetry, retryGo, attemptOnce, h1, h2, h3, t1, t2, t3]

/-- Witness for C1 at a concrete oracle whose every attempt fails with a
`WidFactory` message and a client without a `refreshState` hook. -/
theorem retry_transient_three_failures_witness :
    sendMessageWithRetry (fun _ => AttemptOutcome.sendErr "WidFactory x")
        false (fun _ => false) =
      ([RetryEvent.settle, RetryEvent.sendAttempt 1, RetryEvent.backoff 6000,
        RetryEvent.settle, RetryEvent.sendAttempt 2, RetryEvent.backoff 12000,
        RetryEvent.settle, RetryEvent.sendAttempt 3, RetryEvent.backoff 24000],
       Except.error "WidFactory x") := by
  simpa [refreshEvents] using
    retry_transient_three_failures "WidFactory x" "WidFactory x" "WidFactory x"
      (fun _ => AttemptOutcome.sendErr "WidFactory x") false (fun _ => false)
      rfl rfl rfl (by decide) (by decide) (by decide)

/-- C2: a first attempt failing with a message matching none of the three
transient markers ends the run after exactly one attempt, with no backoff
sleep, no refresh call and no further attempts, and that error is the one
propagated. -/
theorem retry_nonretryable_stops (m : String) (o : Nat → AttemptOutcome)
    (hasRefresh : Bool) (rf : Nat → Bool)
    (h1 : o 1 = AttemptOutcome.sendErr m) (ht : isTransient m = false) :
    sendMessageWithRetry o hasRefresh rf =
      ([RetryEvent.settle, RetryEvent.sendAttempt 1], Except.error m) := by
  simp [sendMessageWithRetry, retryGo, attemptOnce, h1, ht]

/-- Witness for C2 at a concrete oracle failing with a non-transient
message. -/
theorem retry_nonretryable_stops_witness :
    sendMessageWithRetry (fun _ => AttemptOutcome.sendErr "invalid destination")
        true (fun _ => false) =
      ([RetryEvent.settle, RetryEvent.sendAttempt 1],
       Except.error "invalid destination") :=
  retry_nonretryable_stops "invalid destination"
    (fun _ => AttemptOutcome.sendErr "invalid destination") true (fun _ => false)
    rfl (by decide)

/-- JavaScript truthiness of an optional string value (`if (!groupId)`,
`if (html)`, ...): `undefined` and the empty string are falsy. -/
def truthyS : Option String → Bool
  | none => false
  | some s => !(s == "")

/-- One entry of the `messages` array of a `/send-batch` request, with the
fields the handler destructures (webhook.js line 245).  `sendHd` is read
but never used by the handler and is omitted. -/
structure MessageData where
  groupId : Option String
  message : Option String
  mediaType : Option String
  mediaContent : Option String
  html : Option String
  vw : Option Nat
  vh : Option Nat
  deriving DecidableEq, Repr

/-- The external world's behaviour while one batch item is processed:
whether `htmlToImage` resolves, whether `MessageMedia.fromUrl` resolves,
and the per-attempt behaviour of the client used by
`sendMessageWithRetry`. -/
structure ItemOracle where
  htmlOk : Bool
  urlOk : Bool
  attempt : Nat → AttemptOutcome
  hasRefresh : Bool
  refreshFails : Nat → Bool

/-- Where one iteration of the `/send-batch` loop body ends up.  The first
five constructors are the `continue` paths (webhook.js lines 248-306); the
`sent`/`sendFailed` constructors are the two exits of the send `try`/
`catch` (lines 310-334); `unexpected` is the outer per-item catch (line
349), reached e.g. when `messages[i]` is `null` and the destructuring of
line 245 throws. -/
inductive ItemPhase where
  | skippedNoGroup
  | skippedNoContent
  | htmlFailed
  | urlFailed
  | invalidMediaType
  | sent
  | sendFailed (msg : String)
  | unexpected
  deriving DecidableEq, Repr

/-- Run `sendMessageWithRetry` for an item and fold its outcome into an
`ItemPhase`. -/
def sendPhase (o : ItemOracle) : List RetryEvent × ItemPhase :=
  match sendMessageWithRetry o.attempt o.hasRefresh o.refreshFails with
  | (evs, Except.ok _) => (evs, ItemPhase.sent)
  | (evs, Except.error m) => (evs, ItemPhase.sendFailed m)

/-- The `/send-batch` loop body for one item (webhook.js lines 243-334),
up to but excluding the trailing delay/cleanup: per-item validation, the
html branch, the media branch (`base64` never throws in the model — the
regex match and `new MessageMedia` cannot fail; `url` fails when the fetch
does), then the plain-text or media send through `sendMessageWithRetry`.
A `none` item models a `null` entry of the `messages` array, whose
destructuring throws and lands in the outer per-item catch. -/
def classifyItem (d : Option MessageData) (o : ItemOracle) :
    List RetryEvent × ItemPhase :=
  match d with
  | none => ([], ItemPhase.unexpected)
  | some m =>
    if !truthyS m.groupId then ([], ItemPhase.skippedNoGroup)
    else if !truthyS m.message && !truthyS m.mediaContent && !truthyS m.html then
      ([], ItemPhase.skippedNoContent)
    else if truthyS m.html then
      if o.htmlOk then sendPhase o else ([], ItemPhase.htmlFailed)
    else if truthyS m.mediaContent && truthyS m.mediaType then
      if m.mediaType == some "base64" then sendPhase o
      else if m.mediaType == some "url" then
        if o.urlOk then sendPhase o else ([], ItemPhase.urlFailed)
      else ([], ItemPhase.invalidMediaType)
    else sendPhase o

/-- Observable steps of the batch loop: the start of item `i`'s
processing, a retry-policy step inside item `i`, the extra
`MESSAGE_DELAY_MS * 2` cooldown after a `WidFactory` exhaustion (lines
330-333), and the inter-message delay of lines 337-340. -/
inductive BatchEvent where
  | itemStart (i : Nat)
  | retryStep (i : Nat) (e : RetryEvent)
  | cooldown (i : Nat) (ms : Nat)
  | interDelay (i : Nat) (ms : Nat)
  deriving DecidableEq, Repr

/-- Did the item land on `successCount++` (webhook.js line 324)? -/
def phaseSucceeds : ItemPhase → Bool
  | ItemPhase.sent => true
  | _ => false

/-- Did the loop body run past the send `try`/`catch`, i.e. reach the
inter-message delay of lines 336-340?  The five `continue` paths and the
outer per-item catch do not. -/
def phaseReachesDelay : ItemPhase → Bool
  | ItemPhase.sent => true
  | ItemPhase.sendFailed _ => true
  | _ => false

/-- The extra cooldown of webhook.js lines 330-333: after all retries
failed, if the propagated message contains `WidFactory`, sleep
`MESSAGE_DELAY_MS * 2`. -/
def cooldownEvents (i : Nat) (p : ItemPhase) (D : Nat) : List BatchEvent :=
  match p with
  | ItemPhase.sendFailed msg =>
      if containsStr "WidFactory" msg then [BatchEvent.cooldown i (D * 2)] else []
  | _ => []

/-- All events produced while the loop handles item `i`; `isLast` is
`i = messages.length - 1`, the guard of line 337. -/
def itemEvents (i : Nat) (isLast : Bool) (d : Option MessageData)
    (o : ItemOracle) (D : Nat) : List BatchEvent :=
  let c := classifyItem d o
  BatchEvent.itemStart i ::
    (c.1.map (BatchEvent.retryStep i) ++ cooldownEvents i c.2 D ++
      (if phaseReachesDelay c.2 && !isLast then [BatchEvent.interDelay i D] else []))

/-- The two counters the batch loop maintains (webhook.js lines 231-232).
There is no third counter: validation skips and genuine failures both land
in `failureCount`. -/
structure Tally where
  successCount : Nat
  failureCount : Nat
  deriving DecidableEq, Repr

/-- The sequential `for` loop of webhook.js lines 242-353, as a recursion
over the remaining items; `i` is the loop index. -/
def processBatchGo (oracle : Nat → ItemOracle) (D : Nat) :
    Nat → List (Option MessageData) → List BatchEvent × Tally
  | _, [] => ([], ⟨0, 0⟩)
  | i, d :: rest =>
      let p := (classifyItem d (oracle i)).2
      let evs := itemEvents i rest.isEmpty d (oracle i) D
      let r := processBatchGo oracle D (i + 1) rest
      (evs ++ r.1,
       if phaseSucceeds p then ⟨r.2.successCount + 1, r.2.failureCount⟩
       else ⟨r.2.successCount, r.2.failureCount + 1⟩)

/-- The whole batch-processing loop, starting at index 0. -/
def processBatch (items : List (Option MessageData))
    (oracle : Nat → ItemOracle) (D : Nat) : List BatchEvent × Tally :=
  processBatchGo oracle D 0 items

/-- The HTTP-level result of `POST /send-batch`: a synchronous rejection,
or the 202 acceptance followed by the asynchronous processing (whose trace
and final tally are bundled into the constructor for observability). -/
inductive SubmitResult where
  | rejected (status : Nat) (msg : String)
  | accepted (totalMessages : Nat) (events : List BatchEvent) (tally : Tally)
  deriving DecidableEq, Repr

/-- The interpolated 400 message of webhook.js line 214. -/
def batchTooLargeMsg (maxBatchSize : Nat) : String :=
  "Batch size exceeds maximum allowed (" ++ toString maxBatchSize ++ ")"

/-- The `/send-batch` handler (webhook.js lines 187-360): shape, emptiness
and size validation, then the client-readiness check, then acceptance and
sequential processing.  `messages = none` models a request body whose
`messages` is not an array. -/
def submitBatch (messages : Option (List (Option MessageData)))
    (oracle : Nat → ItemOracle) (maxBatchSize D : Nat)
    (clientReady : Bool) : SubmitResult :=
  match messages with
  | none => SubmitResult.rejected 400 "The messages parameter must be an array"
  | some ms =>
    if ms.length = 0 then
      SubmitResult.rejected 400 "The messages array cannot be empty"
    else if maxBatchSize < ms.length then
      SubmitResult.rejected 400 (batchTooLargeMsg maxBatchSize)
    else if !clientReady then
      SubmitResult.rejected 503
        "WhatsApp client is not ready yet. Please try again later."
    else
      let r := processBatch ms oracle D
      SubmitResult.accepted ms.length r.1 r.2

/-- An item failing the per-item validation of webhook.js lines 248-258:
missing (or falsy) `groupId`, or none of `message`/`mediaContent`/`html`
present. -/
def validationFails (d : Option MessageData) : Bool :=
  match d with
  | none => false
  | some m =>
      !truthyS m.groupId ||
        (!truthyS m.message && !truthyS m.mediaContent && !truthyS m.html)

/-- Every item adds exactly one to exactly one of the two counters: the
success and failure counts always sum to the number of items handed to the
loop, whatever the items and the external world do. -/
theorem processBatchGo_tally_sum (oracle : Nat → ItemOracle) (D : Nat) :
    ∀ (items : List (Option MessageData)) (i0 : Nat),
      (processBatchGo oracle D i0 items).2.successCount +
        (processBatchGo oracle D i0 items).2.failureCount = items.length := by
  intro items
  induction items with
  | nil => intro i0; simp [processBatchGo]
  | cons d rest ih =>
      intro i0
      have h := ih (i0 + 1)
      by_cases hp : phaseSucceeds (classifyItem d (oracle i0)).2 = true
      · simp [processBatchGo, hp]; omega
      · rw [Bool.not_eq_true] at hp
        simp [processBatchGo, hp]; omega

/-- Every index below the number of remaining items is started by the
loop: no per-item path prevents the following items from being
processed. -/
theorem processBatchGo_itemStart_mem (oracle : Nat → ItemOracle) (D : Nat) :
    ∀ (items : List (Option MessageData)) (i0 k : Nat), k < items.length →
      BatchEvent.itemStart (i0 + k) ∈ (processBatchGo oracle D i0 items).1 := by
  intro items
  induction items with
  | nil => intro i0 k hk; simp at hk
  | cons d rest ih =>
      intro i0 k hk
      cases k with
      | zero => simp [processBatchGo, itemEvents]
      | succ k2 =>
          have hmem := ih (i0 + 1) k2 (by simpa using hk)
          have harith : i0 + (k2 + 1) = i0 + 1 + k2 := by omega
          rw [harith]
          simp only [processBatchGo, List.mem_append]
          exact Or.inr hmem

/-- If item `k` exists, is not the last item, and its loop body reaches
the delay region (it was sent or its send retries were exhausted), then
the trace contains the inter-message delay for index `k`. -/
theorem processBatchGo_interDelay_mem (oracle : Nat → ItemOracle) (D : Nat) :
    ∀ (items : List (Option MessageData)) (i0 k : Nat) (d : Option MessageData),
      items[k]? = some d → k + 1 < items.length →
      phaseReachesDelay (classifyItem d (oracle (i0 + k))).2 = true →
      BatchEvent.interDelay (i0 + k) D ∈ (processBatchGo oracle D i0 items).1 := by
  intro items
  induction items with
  | nil => intro i0 k d hd hk; simp at hd
  | cons d0 rest ih =>
      intro i0 k d hd hk hp
      cases k with
      | zero =>
          have hd0 : d0 = d := by simpa using hd
          subst hd0
          have hrest : rest.isEmpty = false := by
            cases rest with
            | nil => simp at hk
            | cons a b => simp [List.isEmpty]
          simp only [Nat.add_zero] at hp ⊢
          simp only [processBatchGo, List.mem_append]
          left
          simp [itemEvents, hp, hrest]
      | succ k2 =>
          have hd2 : rest[k2]? = some d := by simpa using hd
          have hk2 : k2 + 1 < rest.length := by simpa using hk
          have harith : i0 + (k2 + 1) = i0 + 1 + k2 := by omega
          rw [harith] at hp ⊢
          have hmem := ih (i0 + 1) k2 d hd2 hk2 hp
          simp only [processBatchGo, List.mem_append]
          exact Or.inr hmem

/-- An inter-message delay with index `j` occurs in the trace only when
item `j` is not the last item: the delay is never inserted after the last
item. -/
theorem processBatchGo_interDelay_bound (oracle : Nat → ItemOracle) (D : Nat) :
    ∀ (items : List (Option MessageData)) (i0 j ms : Nat),
      BatchEvent.interDelay j ms ∈ (processBatchGo oracle D i0 items).1 →
      j + 1 < i0 + items.length := by
  intro items
  induction items with
  | nil => intro i0 j ms hm; simp [processBatchGo] at hm
  | cons d0 rest ih =>
      intro i0 j ms hm
      simp only [processBatchGo, List.mem_append] at hm
      rcases hm with hm | hm
      · simp only [itemEvents, List.mem_cons, List.mem_append, List.mem_map] at hm
        rcases hm with hm | ⟨⟨e, _, hm⟩ | hm⟩ | hm
        · exact absurd hm (by simp)
        · exact absurd hm (by simp)
        · exfalso
          revert hm
          cases hphase : (classifyItem d0 (oracle i0)).2 <;>
            simp [cooldownEvents]
        · revert hm
          split
          · rename_i hcond
            intro hm
            have hj : j = i0 := by
              simpa using congrArg (fun e => match e with
                | BatchEvent.interDelay a _ => a
                | _ => 0) (List.mem_singleton.mp hm)
            subst hj
            have : rest.isEmpty = false := by
              rcases Bool.and_eq_true .. |>.mp hcond with ⟨_, h2⟩
              simpa using h2
            have : 0 < rest.length := by
              cases rest with
              | nil => simp [List.isEmpty] at this
              | cons a b => simp
            simp only [List.length_cons]
            omega
          · intro hm; simp at hm
      · have := ih (i0 + 1) j ms hm
        simp only [List.length_cons]
        omega

/-- If some existing item does not succeed, the final failure count is at
least one. -/
theorem processBatchGo_failure_counted (oracle : Nat → ItemOracle) (D : Nat) :
    ∀ (items : List (Option MessageData)) (i0 k : Nat) (d : Option MessageData),
      items[k]? = some d →
      phaseSucceeds (classifyItem d (oracle (i0 + k))).2 = false →
      1 ≤ (processBatchGo oracle D i0 items).2.failureCount := by
  intro items
  induction items with
  | nil => intro i0 k d hd _; simp at hd
  | cons d0 rest ih =>
      intro i0 k d hd hp
      cases k with
      | zero =>
          have hd0 : d0 = d := by simpa using hd
          subst hd0
          simp only [Nat.add_zero] at hp
          simp [processBatchGo, hp]
      | succ k2 =>
          have hd2 : rest[k2]? = some d := by simpa using hd
          have harith : i0 + (k2 + 1) = i0 + 1 + k2 := by omega
          rw [harith] at hp
          have h1 := ih (i0 + 1) k2 d hd2 hp
          by_cases hs : phaseSucceeds (classifyItem d0 (oracle i0)).2 = true
          · simp only [processBatchGo, hs, if_true]; omega
          · rw [Bool.not_eq_true] at hs
            simp only [processBatchGo, hs, Bool.false_eq_true, if_false]; omega

/-- A valid text-only item (used as a concrete input by several
witnesses). -/
def exTextItem : MessageData :=
  { groupId := some "1234567890-group@g.us", message := some "hello",
    mediaType := none, mediaContent := none, html := none,
    vw := none, vh := none }

/-- An item whose per-item validation fails: no `groupId`. -/
def exSkipItem : MessageData :=
  { groupId := none, message := some "hello",
    mediaType := none, mediaContent := none, html := none,
    vw := none, vh := none }

/-- An external world in which every send attempt succeeds at once. -/
def exOracleOk : ItemOracle :=
  { htmlOk := true, urlOk := true, attempt := fun _ => AttemptOutcome.sendOk,
    hasRefresh := false, refreshFails := fun _ => false }

/-- An external world in which every send attempt fails with a
non-transient message, so the retry policy gives up after one attempt. -/
def exOracleFail : ItemOracle :=
  { htmlOk := true, urlOk := true,
    attempt := fun _ => AttemptOutcome.sendErr "invalid destination",
    hasRefresh := false, refreshFails := fun _ => false }

/-- Counterexample to C3 as stated: in a two-item batch whose first item
is skipped by per-item validation (missing `groupId`), the full trace with
`MESSAGE_DELAY_MS = 5000` contains no wait of any kind between the end of
item 0's processing and the start of item 1's processing — the `continue`
of webhook.js line 251 jumps past the inter-message delay of lines
337-340 — refuting "the scheduler waits at least MESSAGE_DELAY_MS between
finishing item i's processing and starting item i+1's" for i = 0. -/
theorem batch_delay_claim_counterexample :
    (processBatch [some exSkipItem, some exTextItem]
        (fun _ => exOracleOk) 5000).1 =
      [BatchEvent.itemStart 0, BatchEvent.itemStart 1,
       BatchEvent.retryStep 1 RetryEvent.settle,
       BatchEvent.retryStep 1 (RetryEvent.sendAttempt 1)] := rfl

/-- An inter-message delay occurring among item `i`'s events carries the
index `i`, the duration `D`, and certifies that item `i`'s loop body
reached the send stage and that `i` is not the last item: no other
component of `itemEvents` is an `interDelay`, and the conditional emits it
only under `phaseReachesDelay c.2 && !isLast`. -/
theorem interDelay_mem_itemEvents (i : Nat) (isLast : Bool)
    (d : Option MessageData) (o : ItemOracle) (D j ms : Nat)
    (hm : BatchEvent.interDelay j ms ∈ itemEvents i isLast d o D) :
    j = i ∧ ms = D ∧ phaseReachesDelay (classifyItem d o).2 = true ∧
      isLast = false := by
  simp only [itemEvents, List.mem_cons, List.mem_append, List.mem_map] at hm
  rcases hm with hm | ⟨⟨e, _, hm⟩ | hm⟩ | hm
  · exact absurd hm (by simp)
  · exact absurd hm (by simp)
  · exfalso
    revert hm
    cases hphase : (classifyItem d o).2 <;> simp [cooldownEvents]
  · revert hm
    split
    · rename_i hcond
      intro hm
      rw [List.mem_singleton] at hm
      injection hm with hj hms
      obtain ⟨hcond1, hcond2⟩ := Bool.and_eq_true .. |>.mp hcond
      exact ⟨hj, hms, hcond1, by simpa using hcond2⟩
    · intro hm; simp at hm

/-- Characterization of the inter-message delays in a batch trace: every
`interDelay` event comes from an existing, non-final item whose loop body
reached the send stage, and carries that item's index and the configured
delay. -/
theorem processBatchGo_interDelay_char (oracle : Nat → ItemOracle) (D : Nat) :
    ∀ (items : List (Option MessageData)) (i0 j ms : Nat),
      BatchEvent.interDelay j ms ∈ (processBatchGo oracle D i0 items).1 →
      ∃ k d, j = i0 + k ∧ items[k]? = some d ∧ ms = D ∧
        k + 1 < items.length ∧
        phaseReachesDelay (classifyItem d (oracle (i0 + k))).2 = true := by
  intro items
  induction items with
  | nil => intro i0 j ms hm; simp [processBatchGo] at hm
  | cons d0 rest ih =>
      intro i0 j ms hm
      simp only [processBatchGo, List.mem_append] at hm
      rcases hm with hm | hm
      · obtain ⟨hj, hms, hp, hlast⟩ :=
          interDelay_mem_itemEvents i0 rest.isEmpty d0 (oracle i0) D j ms hm
        refine ⟨0, d0, by omega, by simp, hms, ?_, ?_⟩
        · have hpos : 0 < rest.length := by
            cases rest with
            | nil => simp [List.isEmpty] at hlast
            | cons a b => simp
          simp only [List.length_cons]
          omega
        · simpa using hp
      · obtain ⟨k2, d2, hj, hk2, hms, hlast, hp⟩ := ih (i0 + 1) j ms hm
        refine ⟨k2 + 1, d2, by omega, by simpa using hk2, hms, ?_, ?_⟩
        · simp only [List.length_cons]
          omega
        · have harith : i0 + (k2 + 1) = i0 + 1 + k2 := by omega
          rw [harith]
          exact hp

/-- C3 (amended): for every existing item `k`, the trace contains the
inter-message wait for index `k` exactly when item `k` is not the last
item and its loop body reached the send stage (the item was sent, or its
send retries were exhausted) — so items leaving the loop body through a
`continue` (validation skip, html or media resolution failure, invalid
media type) or through the per-item catch proceed to the next item with no
inter-message wait, the wait equals `MESSAGE_DELAY_MS` when present, and
no inter-message wait is ever inserted after the last item (second
conjunct: every inter-message delay in the trace precedes the last
item). -/
theorem batch_interDelay_amended (items : List (Option MessageData))
    (oracle : Nat → ItemOracle) (D k : Nat) (d : Option MessageData)
    (hk : items[k]? = some d) :
    (∀ ms : Nat, BatchEvent.interDelay k ms ∈ (processBatch items oracle D).1 ↔
        (ms = D ∧ k + 1 < items.length ∧
          phaseReachesDelay (classifyItem d (oracle k)).2 = true)) ∧
      ∀ j ms : Nat, BatchEvent.interDelay j ms ∈ (processBatch items oracle D).1 →
        j + 1 < items.length := by
  constructor
  · intro ms
    constructor
    · intro hm
      obtain ⟨k2, d2, hj, hk2, hms, hlast, hp⟩ :=
        processBatchGo_interDelay_char oracle D items 0 k ms
          (by simpa [processBatch] using hm)
      have hk2eq : k2 = k := by omega
      subst hk2eq
      have hd2 : d2 = d := by
        rw [hk2] at hk
        exact (Option.some.injEq _ _ ▸ hk).symm ▸ rfl
      subst hd2
      exact ⟨hms, hlast, by simpa using hp⟩
    · rintro ⟨hms, hlast, hp⟩
      rw [hms]
      have h := processBatchGo_interDelay_mem oracle D items 0 k d hk hlast
        (by simpa using hp)
      simpa [processBatch] using h
  · intro j ms hm
    have h := processBatchGo_interDelay_bound oracle D items 0 j ms
      (by simpa [processBatch] using hm)
    simpa using h

/-- Witness for the amended C3: in a two-item batch whose first item is
sent, the iff at item 0 puts the 5000 ms inter-message delay for item 0 in
the trace. -/
theorem batch_interDelay_amended_witness :
    BatchEvent.interDelay 0 5000 ∈
      (processBatch [some exTextItem, some exTextItem]
        (fun _ => exOracleOk) 5000).1 :=
  ((batch_interDelay_amended [some exTextItem, some exTextItem]
      (fun _ => exOracleOk) 5000 0 (some exTextItem) rfl).1 5000).mpr
    ⟨rfl, by decide, by decide⟩

/-- Counterexample to C4 as stated: the loop's tally consists only of the
two counters `successCount`/`failureCount` (webhook.js lines 231-232), and
an item skipped by per-item validation is recorded exactly like an item
whose send failed — both one-item batches below end with the identical
tally `(0, 1)` (lines 249 and 326 increment the same counter) — so
`Skipped` is not an outcome category distinct from `Failed` in the
tally. -/
theorem batch_skip_tally_counterexample :
    (processBatch [some exSkipItem] (fun _ => exOracleOk) 5000).2 =
        ⟨0, 1⟩ ∧
      (processBatch [some exTextItem] (fun _ => exOracleFail) 5000).2 =
        ⟨0, 1⟩ := by
  constructor <;> rfl

/-- C4 (amended): an item failing per-item validation (missing destination
or missing content) leaves the loop body through the skip path, is
recorded by incrementing the shared failure counter — the tally does not
distinguish it from `Failed` — and does not stop the batch: every item of
the batch is still started. -/
theorem batch_skip_amended (items : List (Option MessageData))
    (oracle : Nat → ItemOracle) (D k : Nat) (d : Option MessageData)
    (hk : items[k]? = some d) (hv : validationFails d = true) :
    ((classifyItem d (oracle k)).2 = ItemPhase.skippedNoGroup ∨
       (classifyItem d (oracle k)).2 = ItemPhase.skippedNoContent) ∧
      1 ≤ (processBatch items oracle D).2.failureCount ∧
      ∀ j : Nat, j < items.length →
        BatchEvent.itemStart j ∈ (processBatch items oracle D).1 := by
  have hskip : (classifyItem d (oracle k)).2 = ItemPhase.skippedNoGroup ∨
      (classifyItem d (oracle k)).2 = ItemPhase.skippedNoContent := by
    cases d with
    | none => simp [validationFails] at hv
    | some m =>
        simp only [validationFails, Bool.or_eq_true] at hv
        rcases hv with hv | hv
        · left; simp [classifyItem, hv]
        · by_cases hg : truthyS m.groupId = true
          · right
            have hg2 : (!truthyS m.groupId) = false := by simp [hg]
            simp [classifyItem, hg2, hv]
          · left
            rw [Bool.not_eq_true] at hg
            simp [classifyItem, hg]
  refine ⟨hskip, ?_, ?_⟩
  · have hfail : phaseSucceeds (classifyItem d (oracle (0 + k))).2 = false := by
      rcases hskip with h | h <;> simp only [Nat.zero_add, h] <;> rfl
    exact processBatchGo_failure_counted oracle D items 0 k d hk hfail
  · intro j hj
    have h := processBatchGo_itemStart_mem oracle D items 0 j hj
    simpa [processBatch] using h

/-- Witness for the amended C4: a two-item batch whose first item misses
its `groupId` is classified on the skip path, ends with at least one
failure counted, and its second item is still started. -/
theorem batch_skip_amended_witness :
    ((classifyItem (some exSkipItem) exOracleOk).2 = ItemPhase.skippedNoGroup ∨
       (classifyItem (some exSkipItem) exOracleOk).2 = ItemPhase.skippedNoContent) ∧
      1 ≤ (processBatch [some exSkipItem, some exTextItem]
            (fun _ => exOracleOk) 5000).2.failureCount ∧
      BatchEvent.itemStart 1 ∈
        (processBatch [some exSkipItem, some exTextItem]
          (fun _ => exOracleOk) 5000).1 := by
  have h := batch_skip_amended [some exSkipItem, some exTextItem]
    (fun _ => exOracleOk) 5000 0 (some exSkipItem) rfl (by decide)
  exact ⟨h.1, h.2.1, h.2.2 1 (by decide)⟩

/-- C6: errors during a single item's processing are caught at item
granularity — whatever the items (including `null` entries whose
destructuring throws) and whatever the external world does, every item is
counted in exactly one of the two tally counters, and every item of the
batch is started, so no single item's error prevents the remaining items
from being processed. -/
theorem batch_item_isolation (items : List (Option MessageData))
    (oracle : Nat → ItemOracle) (D : Nat) :
    (processBatch items oracle D).2.successCount +
        (processBatch items oracle D).2.failureCount = items.length ∧
      ∀ j : Nat, j < items.length →
        BatchEvent.itemStart j ∈ (processBatch items oracle D).1 := by
  constructor
  · exact processBatchGo_tally_sum oracle D items 0
  · intro j hj
    have h := processBatchGo_itemStart_mem oracle D items 0 j hj
    simpa [processBatch] using h

/-- Witness for C6 on a concrete three-item batch containing a `null`
entry and a validation-skipped entry: the counters sum to 3 and the last
item is still started. -/
theorem batch_item_isolation_witness :
    (processBatch [some exSkipItem, none, some exTextItem]
          (fun _ => exOracleOk) 5000).2.successCount +
        (processBatch [some exSkipItem, none, some exTextItem]
          (fun _ => exOracleOk) 5000).2.failureCount =
      ([some exSkipItem, none, some exTextItem] :
        List (Option MessageData)).length ∧
      BatchEvent.itemStart 2 ∈
        (processBatch [some exSkipItem, none, some exTextItem]
          (fun _ => exOracleOk) 5000).1 := by
  have h := batch_item_isolation [some exSkipItem, none, some exTextItem]
    (fun _ => exOracleOk) 5000
  exact ⟨h.1, h.2 2 (by decide)⟩

/-- C5: a `/send-batch` request whose `messages` is not an array, is
empty, or exceeds `MAX_BATCH_SIZE` is rejected with status 400 before
anything else happens: the result is a bare rejection carrying no
processing trace and no tally, so no session send is invoked and no
counter is touched. -/
theorem submitBatch_rejects_invalid (messages : Option (List (Option MessageData)))
    (oracle : Nat → ItemOracle) (maxBatchSize D : Nat) (clientReady : Bool)
    (h : messages = none ∨
      ∃ ms, messages = some ms ∧ (ms.length = 0 ∨ maxBatchSize < ms.length)) :
    ∃ msg, submitBatch messages oracle maxBatchSize D clientReady =
      SubmitResult.rejected 400 msg := by
  rcases h with h | ⟨ms, hms, h2⟩
  · subst h; exact ⟨_, rfl⟩
  · subst hms
    rcases h2 with h2 | h2
    · refine ⟨"The messages array cannot be empty", ?_⟩
      simp [submitBatch, h2]
    · have h0 : ¬ms.length = 0 := by omega
      refine ⟨batchTooLargeMsg maxBatchSize, ?_⟩
      simp [submitBatch, h0, h2]

/-- Witness for C5 at the concrete empty batch. -/
theorem submitBatch_rejects_invalid_witness :
    ∃ msg, submitBatch (some []) (fun _ => exOracleOk) 1000 5000 true =
      SubmitResult.rejected 400 msg :=
  submitBatch_rejects_invalid (some []) (fun _ => exOracleOk) 1000 5000 true
    (Or.inr ⟨[], rfl, Or.inl rfl⟩)

/-- The client handle shared through the whatsappclient module; `info` is
the truthiness of `client.info` (populated identity info). -/
structure ClientHandle where
  info : Bool
  deriving DecidableEq, Repr

/-- The CommonJS whatsappclient module (src/unnamed/part_000).  `current`
is the module-local `let whatsappClient` binding.  `exported` is the value
of the `whatsappClient` property of `module.exports`: CommonJS copies the
then-current value of the variable into the exports object when the module
is first required, and later assignments to the local variable do not
update that property. -/
structure WhatsappClientModule where
  current : Option ClientHandle
  exported : Option ClientHandle
  deriving DecidableEq, Repr

/-- The module as first required: the `let whatsappClient;` binding is
undefined, and `module.exports = { ..., whatsappClient, ... }` snapshots
that undefined value. -/
def moduleInit : WhatsappClientModule := { current := none, exported := none }

/-- `setWhatsAppClient` reassigns the module-local variable only; the
`whatsappClient` property of `module.exports` keeps its snapshot. -/
def setWhatsAppClient (m : WhatsappClientModule) (c : ClientHandle) :
    WhatsappClientModule :=
  { m with current := some c }

/-- `getWhatsAppClient` reads the live module-local variable. -/
def getWhatsAppClient (m : WhatsappClientModule) : Option ClientHandle :=
  m.current

/-- The `GET /health` handler (webhook.js lines 363-370):
`whatsappClient && whatsappClient.info ? 'ready' : 'initializing'`, where
`whatsappClient` is the binding destructured from the module's exports at
require time (webhook.js line 4) — i.e. the snapshot, not the live
variable. -/
def healthStatus (m : WhatsappClientModule) : String :=
  match m.exported with
  | some c => if c.info then "ready" else "initializing"
  | none => "initializing"

/-- C7: evaluating the code at the failing input.  After the `ready` event
stores a client with populated identity info via `setWhatsAppClient`, the
live handle is ready (`getWhatsAppClient` returns it), yet `GET /health`
still reports `"initializing"`: the handler reads the stale
`whatsappClient` snapshot destructured from the module exports, which
captured `undefined` at require time, so the endpoint never reports
`"ready"` — contradicting the claimed if-and-only-if. -/
theorem health_always_initializing :
    getWhatsAppClient (setWhatsAppClient moduleInit ⟨true⟩) = some ⟨true⟩ ∧
      healthStatus (setWhatsAppClient moduleInit ⟨true⟩) = "initializing" := by
  constructor <;> rfl

/-- One character of the regex class `[A-Za-z-+/]` of the data-URI pattern
`/^data:([A-Za-z-+/]+);base64,(.+)$/` (webhook.js lines 129 and 286),
written by character code: uppercase letters 65-90, lowercase letters
97-122, `-` 45, `+` 43, `/` 47. -/
def classChar (c : Char) : Bool :=
  (65 ≤ c.toNat && c.toNat ≤ 90) || (97 ≤ c.toNat && c.toNat ≤ 122) ||
    c.toNat = 45 || c.toNat = 43 || c.toNat = 47

/-- Characters that JavaScript `.` does not match (no `s` flag): line feed
10, carriage return 13, line separator 8232, paragraph separator 8233. -/
def lineTerminatorChar (c : Char) : Bool :=
  c.toNat = 10 || c.toNat = 13 || c.toNat = 8232 || c.toNat = 8233

/-- `dropPrefixL pat s` returns the remainder of `s` after the initial
segment `pat`, or `none` when `pat` is not an initial segment of `s`. -/
def dropPrefixL : List Char → List Char → Option (List Char)
  | [], s => some s
  | _ :: _, [] => none
  | p :: ps, c :: cs => if p = c then dropPrefixL ps cs else none

/-- The match of `/^data:([A-Za-z-+/]+);base64,(.+)$/` against `s`,
returning the two capture groups.  The quantifier `+` on the class is
greedy, and since `;` is not in the class no backtracking can produce a
different split, so the class group is exactly the maximal run of class
characters; `(.+)$` requires a nonempty remainder free of line
terminators (JavaScript `$` without the `m` flag matches only at the end
of the input). -/
def matchDataUri (s : List Char) : Option (List Char × List Char) :=
  match dropPrefixL "data:".data s with
  | none => none
  | some rest =>
    let mimeChars := rest.takeWhile classChar
    if mimeChars.isEmpty then none
    else
      match dropPrefixL ";base64,".data (rest.dropWhile classChar) with
      | none => none
      | some payload =>
        if payload.isEmpty then none
        else if payload.any lineTerminatorChar then none
        else some (mimeChars, payload)

/-- JavaScript `mediaContent.startsWith('data:')`. -/
def startsWithData (s : String) : Bool := startsWithL "data:".data s.data

/-- The `base64` branch of the media resolution (webhook.js lines 125-135
and 282-292): default MIME type `image/png`; if the payload starts with
`data:` and the data-URI pattern matches, use the captured MIME type and
the stripped payload; otherwise leave both defaults. -/
def resolveBase64 (mediaContent : String) : String × String :=
  if startsWithData mediaContent then
    match matchDataUri mediaContent.data with
    | some (mime, payload) => (String.mk mime, String.mk payload)
    | none => ("image/png", mediaContent)
  else ("image/png", mediaContent)

/-- C8: the exact data-URI form is parsed — `data:image/jpeg;base64,AAAA`
resolves to MIME `image/jpeg` with payload `AAAA`, the prefix stripped —
and any base64 input not starting with `data:` resolves to the default
MIME `image/png` with the payload passed through unchanged. -/
theorem resolveBase64_spec (s : String) (h : startsWithData s = false) :
    resolveBase64 "data:image/jpeg;base64,AAAA" = ("image/jpeg", "AAAA") ∧
      resolveBase64 s = ("image/png", s) := by
  constructor
  · rfl
  · simp [resolveBase64, h]

/-- Witness for C8 at a concrete prefix-less payload. -/
theorem resolveBase64_spec_witness :
    resolveBase64 "data:image/jpeg;base64,AAAA" = ("image/jpeg", "AAAA") ∧
      resolveBase64 "iVBORw0KGgo" = ("image/png", "iVBORw0KGgo") :=
  resolveBase64_spec "iVBORw0KGgo" (by decide)

/-- A pattern is an initial segment of itself followed by anything. -/
theorem startsWithL_append (p r : List Char) : startsWithL p (p ++ r) = true := by
  induction p with
  | nil => rfl
  | cons c cs ih => simp [startsWithL, ih]

/-- Dropping a pattern off itself followed by a remainder leaves the
remainder. -/
theorem dropPrefixL_append (p r : List Char) : dropPrefixL p (p ++ r) = some r := by
  induction p with
  | nil => rfl
  | cons c cs ih => simp [dropPrefixL, ih]

/-- When a list contains a character violating `p`, `takeWhile`/`dropWhile`
on that list followed by anything stop inside the list. -/
theorem takeWhile_append_stop (p : Char → Bool) :
    ∀ (l z : List Char), l.any (fun c => !p c) = true →
      (l ++ z).takeWhile p = l.takeWhile p ∧
        (l ++ z).dropWhile p = l.dropWhile p ++ z := by
  intro l
  induction l with
  | nil => intro z h; simp at h
  | cons c cs ih =>
      intro z h
      by_cases hc : p c = true
      · have h2 : cs.any (fun x => !p x) = true := by
          simp only [List.any_cons, hc, Bool.not_true, Bool.false_or] at h
          exact h
        have ih2 := ih z h2
        constructor
        · simp [List.takeWhile_cons, hc, ih2.1]
        · simp [List.dropWhile_cons, hc, ih2.2]
      · rw [Bool.not_eq_true] at hc
        constructor
        · simp [List.takeWhile_cons, hc]
        · simp [List.dropWhile_cons, hc]

/-- When a list contains a character violating `p`, its `dropWhile` is
nonempty and starts with a character of the list violating `p`. -/
theorem dropWhile_head_spec (p : Char → Bool) :
    ∀ l : List Char, l.any (fun c => !p c) = true →
      ∃ h0 t, l.dropWhile p = h0 :: t ∧ p h0 = false ∧ h0 ∈ l := by
  intro l
  induction l with
  | nil => intro h; simp at h
  | cons c cs ih =>
      intro h
      by_cases hc : p c = true
      · have h2 : cs.any (fun x => !p x) = true := by
          simp only [List.any_cons, hc, Bool.not_true, Bool.false_or] at h
          exact h
        obtain ⟨h0, t, hdw, hp0, hmem⟩ := ih h2
        exact ⟨h0, t, by simp [List.dropWhile_cons, hc, hdw], hp0,
          List.mem_cons_of_mem _ hmem⟩
      · rw [Bool.not_eq_true] at hc
        exact ⟨c, cs, by simp [List.dropWhile_cons, hc], hc,
          List.mem_cons_self _ _⟩

/-- C10: an input of the data-URI shape `data:<mime>;base64,<payload>`
whose media type contains a character outside `[A-Za-z-+/]` (such as a
digit) does not match the pattern — the class run stops inside `<mime>`
and the next character is not `;` — so the resolver keeps the default
MIME `image/png` and passes the entire unstripped `data:` string through
as the payload.  The hypotheses pin down the shape: the media type has a
character outside the class and, being the part before the `;base64,`
separator, contains no `;` itself. -/
theorem dataUri_nonclass_mime_no_match (mime payload : String)
    (h1 : mime.data.any (fun c => !classChar c) = true)
    (h2 : ∀ c ∈ mime.data, c.toNat ≠ 59) :
    resolveBase64 ("data:" ++ mime ++ ";base64," ++ payload) =
      ("image/png", "data:" ++ mime ++ ";base64," ++ payload) := by
  have e1 : ∀ a b : String, (a ++ b).data = a.data ++ b.data := fun a b => rfl
  have hdata : ("data:" ++ mime ++ ";base64," ++ payload).data =
      "data:".data ++ (mime.data ++ (";base64,".data ++ payload.data)) := by
    rw [e1, e1, e1, List.append_assoc, List.append_assoc]
  have hstart : startsWithData ("data:" ++ mime ++ ";base64," ++ payload) = true := by
    unfold startsWithData
    rw [hdata]
    exact startsWithL_append _ _
  have hdrop : dropPrefixL "data:".data
      (("data:" ++ mime ++ ";base64," ++ payload).data) =
      some (mime.data ++ (";base64,".data ++ payload.data)) := by
    rw [hdata]
    exact dropPrefixL_append _ _
  have htw := takeWhile_append_stop classChar mime.data
    (";base64,".data ++ payload.data) h1
  have hmatch : matchDataUri (("data:" ++ mime ++ ";base64," ++ payload).data) =
      none := by
    by_cases hmt : (mime.data.takeWhile classChar).isEmpty = true
    · simp only [matchDataUri, hdrop, htw.1, hmt, eq_self_iff_true, if_true]
    · obtain ⟨h0, t, hdw, hpc, hmem⟩ := dropWhile_head_spec classChar mime.data h1
      have h59 : h0.toNat ≠ 59 := h2 h0 hmem
      have hneq : ¬((';' : Char) = h0) := by
        intro he
        exact h59 (by rw [← he]; decide)
      have hsemi : dropPrefixL ";base64,".data
          (mime.data.dropWhile classChar ++ (";base64,".data ++ payload.data)) =
          none := by
        rw [hdw, List.cons_append]
        have hlit : ";base64,".data = ';' :: "base64,".data := rfl
        rw [hlit]
        simp only [dropPrefixL, if_neg hneq]
      rw [Bool.not_eq_true] at hmt
      simp only [matchDataUri, hdrop, htw.1, htw.2, hmt, hsemi,
        Bool.false_eq_true, if_false]
  simp only [resolveBase64, hstart, hmatch, eq_self_iff_true, if_true]

/-- Witness for C10 at the concrete input `data:video/mp4;base64,AAAA`,
whose media type contains the digit `4`. -/
theorem dataUri_nonclass_mime_no_match_witness :
    resolveBase64 ("data:" ++ "video/mp4" ++ ";base64," ++ "AAAA") =
      ("image/png", "data:" ++ "video/mp4" ++ ";base64," ++ "AAAA") :=
  dataUri_nonclass_mime_no_match "video/mp4" "AAAA" (by decide) (by decide)

/-- The destructured parameter of `htmlToImage({htmlContent, vh, vw})`
(src/utils/imageUtils.js line 24).  Numbers model JavaScript numbers with
`0` falsy for the `vw ? vw : 800` defaults. -/
structure HtmlToImageArg where
  htmlContent : Option String
  vw : Option Nat
  vh : Option Nat
  deriving DecidableEq, Repr

/-- The viewport chosen by `htmlToImage` (imageUtils.js lines 27-28):
`const width = vw ? vw : 800; const height = vh ? vh : 800` — JavaScript
truthiness, so `undefined` and `0` both fall back to 800. -/
def htmlToImageDims (a : HtmlToImageArg) : Nat × Nat :=
  ((match a.vw with | some w => if w = 0 then 800 else w | none => 800),
   (match a.vh with | some h => if h = 0 then 800 else h | none => 800))

/-- The argument `htmlToImage` receives from the `POST /send` handler
(webhook.js line 106): the call is `htmlToImage(html)` with the markup
string itself in parameter position, and JavaScript destructuring of
`{htmlContent, vh, vw}` from a string value yields `undefined` for every
named property — the supplied markup never reaches the renderer. -/
def sendHtmlToImageArg (_html : String) : HtmlToImageArg :=
  { htmlContent := none, vw := none, vh := none }

/-- The argument `htmlToImage` receives from the `POST /send-batch`
handler (webhook.js lines 266-270): `htmlToImage({htmlContent: html, vw,
vh})`. -/
def batchHtmlToImageArg (html : String) (vw vh : Option Nat) : HtmlToImageArg :=
  { htmlContent := some html, vw := vw, vh := vh }

/-- The caption used for a media send: `captionText = message || ''`
(webhook.js lines 101 and 261). -/
def captionText (message : Option String) : String :=
  match message with
  | some m => if m == "" then "" else m
  | none => ""

/-- C9: evaluating the code at the failing input.  On the `/send-batch`
path the renderer receives exactly the supplied markup with the 800×800
default viewport and the `message`-or-empty caption, as the claim states;
but on the `/send` path (also cited by the claim) the markup string is
passed positionally to `htmlToImage`, whose object destructuring yields
`undefined` — the renderer does not receive the supplied markup, so for
`/send` requests the claim fails. -/
theorem send_html_markup_lost :
    (sendHtmlToImageArg "<b>hi</b>").htmlContent = none ∧
      (batchHtmlToImageArg "<b>hi</b>" none none).htmlContent = some "<b>hi</b>" ∧
      htmlToImageDims (batchHtmlToImageArg "<b>hi</b>" none none) = (800, 800) ∧
      htmlToImageDims (batchHtmlToImageArg "<b>hi</b>" (some 640) (some 480)) =
        (640, 480) ∧
      captionText (some "caption") = "caption" ∧
      captionText none = "" := by
  refine ⟨rfl, rfl, rfl, rfl, rfl, rfl⟩
